import Mathlib

/-!
Shallow embedding of the simulation-workflow orchestration core of the
OpenFOAM_GUI repository, and proofs of the specified properties.

The embedded components:
* `JobMgr`  — `modules/propeller/backend/job_manager.py` (JobManager):
  job records, `create_job`, `update_job` with ETA derivation.
* `Workflow` — `modules/propeller/backend/workflow.py`
  (WorkflowManager.run_workflow loop, `stop_workflow`).
* `WindTunnel` — `modules/wind_tunnel/backend/workflow.py`
  (WorkflowManager.create_polymesh) and
  `modules/wind_tunnel/backend/main.py` (websocket_logs history replay).

Python `datetime` timestamps are modelled as rational numbers of seconds;
`None` becomes `Option.none`; Python dict mutation becomes insertion into an
association list.
-/

namespace JobMgr

/-- A job record, mirroring the dict built by `JobManager.create_job` /
the auto-create branch of `JobManager.update_job`. -/
structure Job where
  job_id : String
  run_id : String
  status : String
  progress : Int
  current_step : Option String
  error : Option String
  created_at : ℚ
  started_at : Option ℚ
  completed_at : Option ℚ
  eta_seconds : Option ℚ
  deriving Repr, DecidableEq

/-- The `self.jobs` dict: an association list keyed by job id. -/
def Jobs := List (String × Job)

instance : DecidableEq Jobs := by unfold Jobs; infer_instance

/-- Dict lookup `self.jobs.get(job_id)`. -/
def jfind (jobs : Jobs) (id : String) : Option Job :=
  match jobs with
  | [] => none
  | (k, j) :: rest => if k = id then some j else jfind rest id

/-- Dict assignment `self.jobs[job_id] = job`. -/
def jinsert (jobs : Jobs) (id : String) (j : Job) : Jobs :=
  match jobs with
  | [] => [(id, j)]
  | (k, j0) :: rest =>
      if k = id then (k, j) :: rest else (k, j0) :: jinsert rest id j

/-- The fresh record built by `create_job` (status `queued`, progress 0,
no timestamps besides `created_at`, no error, no ETA). -/
def freshJob (job_id run_id : String) (now : ℚ) : Job :=
  { job_id := job_id
    run_id := run_id
    status := "queued"
    progress := 0
    current_step := none
    error := none
    created_at := now
    started_at := none
    completed_at := none
    eta_seconds := none }

/-- `JobManager.create_job`: unconditionally stores a fresh record under
`job_id` and returns it. -/
def create_job (jobs : Jobs) (job_id run_id : String) (now : ℚ) :
    Jobs × Job :=
  let job := freshJob job_id run_id now
  (jinsert jobs job_id job, job)

/-- The keyword arguments of `JobManager.update_job`; `none` models an
omitted argument (Python default `None`). -/
structure UpdateFields where
  status : Option String
  progress : Option Int
  current_step : Option String
  error : Option String
  eta_seconds : Option ℚ
  deriving Repr, DecidableEq

/-- An `update_job` call supplying no fields. -/
def noFields : UpdateFields :=
  { status := none, progress := none, current_step := none,
    error := none, eta_seconds := none }

/-- The `if status:` block of `update_job`: store `status`; stamp
`started_at` on the first transition into `running`; otherwise stamp
`completed_at` whenever `status` is terminal. -/
def applyStatus (job : Job) (s : String) (now : ℚ) : Job :=
  let j := { job with status := s }
  if s = "running" ∧ job.started_at = none then
    { j with started_at := some now }
  else if s = "success" ∨ s = "failed" ∨ s = "stopped" then
    { j with completed_at := some now }
  else j

/-- The `if progress is not None:` block of `update_job`: store `progress`;
when `started_at` is set and `0 < progress < 100`, derive
`eta_seconds = elapsed / (progress / 100) - elapsed`. -/
def applyProgress (job : Job) (p : Int) (now : ℚ) : Job :=
  let j := { job with progress := p }
  match job.started_at with
  | some started =>
      if 0 < p then
        let elapsed : ℚ := now - started
        if p < 100 then
          let estimatedTotal : ℚ := elapsed / ((p : ℚ) / 100)
          { j with eta_seconds := some (estimatedTotal - elapsed) }
        else j
      else j
  | none => j

/-- The field-merging body of `update_job`, applied to the record found (or
auto-created) under the id.  Python truthiness: an empty `status`,
`current_step` or `error` string is falsy and skipped, while
`progress` and `eta_seconds` are compared against `None` explicitly. -/
def applyFields (job : Job) (f : UpdateFields) (now : ℚ) : Job :=
  let job := match f.status with
    | some s => if s = "" then job else applyStatus job s now
    | none => job
  let job := match f.progress with
    | some p => applyProgress job p now
    | none => job
  let job := match f.current_step with
    | some cs => if cs = "" then job else { job with current_step := some cs }
    | none => job
  let job := match f.error with
    | some e => if e = "" then job else { job with error := some e }
    | none => job
  let job := match f.eta_seconds with
    | some e => { job with eta_seconds := some e }
    | none => job
  job

/-- `JobManager.update_job`: auto-create a fresh record (with
`run_id = job_id`) when the id is unknown, then merge the supplied
fields. -/
def update_job (jobs : Jobs) (id : String) (f : UpdateFields) (now : ℚ) :
    Jobs :=
  let base := match jfind jobs id with
    | some j => j
    | none => freshJob id id now
  jinsert jobs id (applyFields base f now)

/-- The `status` visible through `get_job_status`. -/
def statusOf (jobs : Jobs) (id : String) : Option String :=
  (jfind jobs id).map Job.status

/-- The `error` field visible through `get_job_status`. -/
def errorOf (jobs : Jobs) (id : String) : Option String :=
  (jfind jobs id).bind Job.error

/-- The `progress` field visible through `get_job_status`. -/
def progressOf (jobs : Jobs) (id : String) : Option Int :=
  (jfind jobs id).map Job.progress

/-- The `eta_seconds` field visible through `get_job_status`. -/
def etaOf (jobs : Jobs) (id : String) : Option ℚ :=
  (jfind jobs id).bind Job.eta_seconds

/-- The `completed_at` field visible through `get_job_status`. -/
def completedAtOf (jobs : Jobs) (id : String) : Option ℚ :=
  (jfind jobs id).bind Job.completed_at

/-- The `started_at` field visible through `get_job_status`. -/
def startedAtOf (jobs : Jobs) (id : String) : Option ℚ :=
  (jfind jobs id).bind Job.started_at

/-- The `current_step` field visible through `get_job_status`. -/
def currentStepOf (jobs : Jobs) (id : String) : Option String :=
  (jfind jobs id).bind Job.current_step

end JobMgr

namespace Workflow

open JobMgr

/-- Outcome of one step function of `WorkflowManager.run_workflow`:
`ok`/`fail` for a normal `(success, message)` return, `exn` for the
`except Exception` path (message is `str(e)`). -/
inductive StepResult where
  | ok (msg : String)
  | fail (msg : String)
  | exn (msg : String)
  deriving Repr, DecidableEq

def StepResult.isOk : StepResult → Bool
  | .ok _ => true
  | _ => false

/-- A WebSocket event payload passed to `log_callback` by
`run_workflow` (the stage-local `log` events of the underlying process
stream are not part of the pipeline loop itself). -/
inductive Event where
  | progress (step : String) (progress : Int) (step_num total_steps : Nat)
  | error (step : String) (message : String)
  | complete (message : String)
  deriving Repr, DecidableEq

def Event.isComplete : Event → Bool
  | .complete _ => true
  | _ => false

/-- The stage loop of `WorkflowManager.run_workflow` from stage index `i`
on.  For each stage: `progress = int((i / total_steps) * 100)`, update the
job (status `running`, progress, current step), broadcast a `progress`
event, then invoke the step function.  On failure or exception: update the
job to `failed` with the message, broadcast an `error` event, return.
After the last stage: update to `success` with progress 100 and broadcast
a `complete` event.  Returns the registry, the broadcast events, and the
indices of the stages actually invoked. -/
def runLoop (jobs : Jobs) (id : String) (total : Nat) (i : Nat)
    (steps : List (String × StepResult)) (now : ℚ) :
    Jobs × List Event × List Nat :=
  match steps with
  | [] =>
      let jobs := update_job jobs id
        { noFields with status := some "success", progress := some 100 } now
      (jobs, [Event.complete "Workflow completed successfully"], [])
  | (name, r) :: rest =>
      let prog : Int := ((i * 100) / total : Nat)
      let jobs := update_job jobs id
        { noFields with
            status := some "running"
            progress := some prog
            current_step := some name } now
      let ev := Event.progress name prog (i + 1) total
      match r with
      | .ok _ =>
          let (jobs', evs, invoked) := runLoop jobs id total (i + 1) rest now
          (jobs', ev :: evs, i :: invoked)
      | .fail m =>
          let jobs := update_job jobs id
            { noFields with status := some "failed", error := some m } now
          (jobs, [ev, Event.error name m], [i])
      | .exn m =>
          let jobs := update_job jobs id
            { noFields with status := some "failed", error := some m } now
          (jobs, [ev, Event.error name m], [i])

/-- The job update performed at the head of each loop iteration of
`run_workflow`. -/
def stageUpdate (jobs : Jobs) (id : String) (total i : Nat)
    (name : String) (now : ℚ) : Jobs :=
  update_job jobs id
    { noFields with
        status := some "running"
        progress := some (((i * 100) / total : Nat) : Int)
        current_step := some name } now

/-- `WorkflowManager.run_workflow`: initial `update_job(status="running",
progress=0)`, then the stage loop over the step list. -/
def run_workflow (jobs : Jobs) (id : String)
    (steps : List (String × StepResult)) (now : ℚ) :
    Jobs × List Event × List Nat :=
  let jobs := update_job jobs id
    { noFields with status := some "running", progress := some 0 } now
  runLoop jobs id steps.length 0 steps now

/-- State shared between `run_workflow` and `stop_workflow`: the job
registry and `self.active_processes` (ids with a live process handle),
plus the set of process ids that have been sent terminate/kill. -/
structure WState where
  jobs : Jobs
  active_processes : List String
  killed : List String
  deriving DecidableEq

/-- `WorkflowManager.stop_workflow`: when a process handle is registered
under the id, terminate and kill it, drop the handle, set the job status
to `stopped`, and return `True`; otherwise return `False`. -/
def stop_workflow (s : WState) (id : String) (now : ℚ) : WState × Bool :=
  if id ∈ s.active_processes then
    ({ jobs := update_job s.jobs id
         { noFields with status := some "stopped" } now,
       active_processes := s.active_processes.erase id,
       killed := id :: s.killed }, true)
  else (s, false)

/-- Resumption of the stage awaited in `run_workflow` after its external
process was killed: `run_cmd_async` sees the non-zero exit, drops the
handle if still registered, and returns failure; `run_workflow` then
records `failed` with the stage's message and broadcasts an `error`
event. -/
def resumeAfterKill (s : WState) (id : String) (stepName failMsg : String)
    (now : ℚ) : WState × List Event :=
  let active := s.active_processes.erase id
  let jobs := update_job s.jobs id
    { noFields with status := some "failed", error := some failMsg } now
  ({ s with jobs := jobs, active_processes := active },
   [Event.error stepName failMsg])

/-- A state in which run `r1` has been moved to `running` and its active
stage has a registered external process — the situation in which a stop
request arrives. -/
def soloRunState : WState :=
  { jobs := update_job [] "r1"
      { noFields with status := some "running", progress := some 0 } 0,
    active_processes := ["r1"],
    killed := [] }

/-- Whether `pat` occurs at the head of `cs`. -/
def leadsChars : List Char → List Char → Bool
  | [], _ => true
  | _ :: _, [] => false
  | p :: ps, c :: cs => (p == c) && leadsChars ps cs

/-- Whether `pat` occurs anywhere in `cs`. -/
def occursChars (pat : List Char) : List Char → Bool
  | [] => leadsChars pat []
  | c :: cs => leadsChars pat (c :: cs) || occursChars pat cs

/-- Python's `pat in s` substring test. -/
def strContains (s pat : String) : Bool :=
  occursChars pat.data s.data

/-- The success verdict of the propeller `WorkflowManager._check_mesh`:
the stage reports failure exactly when the captured output contains the
fatal marker `FOAM FATAL ERROR`; the exit code of the `checkMesh`
process is not consulted. -/
def checkMeshReport (output : String) : Bool :=
  !strContains output "FOAM FATAL ERROR"

end Workflow

namespace WindTunnel

/-- The characters before the first `.` of a reversed name, i.e. the
characters after the last `.` of the name; `none` when there is no dot. -/
def takeUntilDot : List Char → Option (List Char)
  | [] => none
  | c :: cs => if c == '.' then some [] else (takeUntilDot cs).map (c :: ·)

/-- `Path.suffix.lower()` for a file name: the last `.`-extension
(including the dot), lower-cased; empty when the name has no dot. -/
def fileSuffix (name : String) : String :=
  match takeUntilDot name.data.reverse with
  | some ext => String.mk ('.' :: ext.reverse.map Char.toLower)
  | none => ""

/-- The parts of the run directory inspected by the wind-tunnel
`WorkflowManager.create_polymesh`: whether
`windTunnelCase/constant/polyMesh` exists, whether its `points` file
exists, and the mesh files found by globbing `*.unv` then `*.msh`. -/
structure FS where
  polyMeshDir : Bool
  pointsFile : Bool
  unvFiles : List String
  mshFiles : List String
  deriving Repr, DecidableEq

/-- Behaviour of the external processes `create_polymesh` may spawn:
the `(success, output)` of the mesh converter and of `checkMesh`. -/
structure ProcBehavior where
  convertResult : Bool × String
  checkResult : Bool × String
  deriving Repr, DecidableEq

/-- The wind-tunnel `WorkflowManager.create_polymesh`, returning its
boolean result together with the external commands it spawned, in
order.  When `constant/polyMesh` and its `points` file already exist it
returns `True` at once, spawning nothing; otherwise it picks the first
`*.unv`/`*.msh` file, runs the matching converter, and — when the
conversion succeeds — runs `checkMesh` and returns `True` regardless of
the `checkMesh` outcome (`return True  # checkMesh warnings are okay`). -/
def create_polymesh (fs : FS) (pb : ProcBehavior) : Bool × List String :=
  if fs.polyMeshDir ∧ fs.pointsFile then
    (true, [])
  else
    match fs.unvFiles ++ fs.mshFiles with
    | [] => (false, [])
    | meshFile :: _ =>
        if fileSuffix meshFile = ".unv" then
          runConvert ("ideasUnvToFoam " ++ meshFile) pb
        else if fileSuffix meshFile = ".msh" then
          runConvert ("gmshToFoam " ++ meshFile) pb
        else
          (false, [])
where
  runConvert (cmd : String) (pb : ProcBehavior) : Bool × List String :=
    if pb.convertResult.1 then
      (true, [cmd, "checkMesh"])
    else
      (false, [cmd])

/-- The sentinel line sent by `websocket_logs` after replaying history. -/
def sentinel : String := "[Connected - showing recent log history above]"

/-- A server-to-client WebSocket message of `websocket_logs`. -/
inductive WsMsg where
  | log (line : String)
  | pong
  deriving Repr, DecidableEq

/-- `recent_lines = lines[-50:] if len(lines) > 50 else lines`. -/
def recentLines (lines : List String) : List String :=
  if lines.length > 50 then lines.drop (lines.length - 50) else lines

/-- The history replay performed by `websocket_logs` on attach when the
run's durable log file exists: each recent line is sent as a `log`
message (stripped), followed by the sentinel `log` line. -/
def replayMessages (lines : List String) : List WsMsg :=
  (recentLines lines).map (fun l => WsMsg.log l.trim) ++ [WsMsg.log sentinel]

/-- The post-replay receive loop of `websocket_logs`: the only message
the server sends on its own after the replay is a `pong` in answer to a
literal client `ping`. -/
def liveLoopReply (clientMsg : String) : List WsMsg :=
  if clientMsg = "ping" then [WsMsg.pong] else []

/-- The last `n` elements of a list (spec-side description of the
replayed window). -/
def lastN (n : Nat) (xs : List α) : List α :=
  xs.drop (xs.length - n)

end WindTunnel

namespace Workflow

/-- The progress payloads of the `progress` events of a trace, in order. -/
def progressVals : List Event → List Int
  | [] => []
  | .progress _ p _ _ :: rest => p :: progressVals rest
  | .error _ _ :: rest => progressVals rest
  | .complete _ :: rest => progressVals rest

end Workflow

/-! ## Lemmas about the job registry -/

namespace JobMgr

theorem jfind_jinsert_self (jobs : Jobs) (id : String) (j : Job) :
    jfind (jinsert jobs id j) id = some j := by
  induction jobs with
  | nil => simp [jinsert, jfind]
  | cons hd tl ih =>
      obtain ⟨k, j0⟩ := hd
      by_cases hk : k = id
      · simp [jinsert, jfind, hk]
      · simp [jinsert, jfind, hk, ih]

theorem update_job_found (jobs : Jobs) (id : String) (j : Job)
    (f : UpdateFields) (now : ℚ) (h : jfind jobs id = some j) :
    update_job jobs id f now = jinsert jobs id (applyFields j f now) := by
  simp [update_job, h]

theorem jfind_update_job (jobs : Jobs) (id : String) (j : Job)
    (f : UpdateFields) (now : ℚ) (h : jfind jobs id = some j) :
    jfind (update_job jobs id f now) id = some (applyFields j f now) := by
  rw [update_job_found jobs id j f now h]
  exact jfind_jinsert_self jobs id _

theorem jfind_update_job_any (jobs : Jobs) (id : String)
    (f : UpdateFields) (now : ℚ) :
    ∃ base, jfind (update_job jobs id f now) id =
      some (applyFields base f now) := by
  unfold update_job
  cases h : jfind jobs id with
  | some j => exact ⟨j, by simp [jfind_jinsert_self]⟩
  | none => exact ⟨freshJob id id now, by simp [jfind_jinsert_self]⟩

/-- A status-only failure update sets `status` and (for a non-empty
message) `error`, whatever the record looked like before. -/
theorem applyFields_failed (base : Job) (m : String) (now : ℚ)
    (hm : m ≠ "") :
    (applyFields base
        { noFields with status := some "failed", error := some m }
        now).status = "failed"
    ∧ (applyFields base
        { noFields with status := some "failed", error := some m }
        now).error = some m := by
  simp [applyFields, applyStatus, noFields, hm]

end JobMgr

/-! ## Lemmas about the pipeline loop -/

namespace Workflow

open JobMgr

theorem applyStatus_status (job : Job) (s : String) (now : ℚ) :
    (applyStatus job s now).status = s := by
  unfold applyStatus
  split_ifs <;> rfl

theorem applyFields_status_only (base : Job) (s : String) (now : ℚ)
    (hs : s ≠ "") :
    (applyFields base { noFields with status := some s } now).status
      = s := by
  simp [applyFields, noFields, hs, applyStatus_status]

theorem statusOf_update_status_only (jobs : Jobs) (id s : String)
    (now : ℚ) (hs : s ≠ "") :
    statusOf (update_job jobs id
      { noFields with status := some s } now) id = some s := by
  obtain ⟨base, hb⟩ := jfind_update_job_any jobs id
    { noFields with status := some s } now
  simp [statusOf, hb, applyFields_status_only base s now hs]

theorem statusOf_update_failed (jobs : Jobs) (id m : String) (now : ℚ)
    (hm : m ≠ "") :
    statusOf (update_job jobs id
      { noFields with status := some "failed", error := some m } now) id
      = some "failed"
    ∧ errorOf (update_job jobs id
      { noFields with status := some "failed", error := some m } now) id
      = some m := by
  obtain ⟨base, hb⟩ := jfind_update_job_any jobs id
    { noFields with status := some "failed", error := some m } now
  exact ⟨by simp [statusOf, hb, (applyFields_failed base m now hm).1],
    by simp [errorOf, hb, (applyFields_failed base m now hm).2]⟩

theorem applyFields_success_100 (base : Job) (now : ℚ) :
    (applyFields base
      { noFields with status := some "success", progress := some 100 }
      now).status = "success"
    ∧ (applyFields base
      { noFields with status := some "success", progress := some 100 }
      now).progress = 100 := by
  simp only [applyFields, noFields]
  unfold applyProgress
  cases h : (applyStatus base "success" now).started_at <;>
    simp [h, applyStatus_status]

theorem statusOf_update_success (jobs : Jobs) (id : String) (now : ℚ) :
    statusOf (update_job jobs id
      { noFields with status := some "success", progress := some 100 }
      now) id = some "success"
    ∧ progressOf (update_job jobs id
      { noFields with status := some "success", progress := some 100 }
      now) id = some 100 := by
  obtain ⟨base, hb⟩ := jfind_update_job_any jobs id
    { noFields with status := some "success", progress := some 100 } now
  exact ⟨by simp [statusOf, hb, (applyFields_success_100 base now).1],
    by simp [progressOf, hb, (applyFields_success_100 base now).2]⟩

theorem range'_cons (i n : Nat) :
    List.range' i (n + 1) = i :: List.range' (i + 1) n := rfl

theorem runLoop_cons_ok (jobs : Jobs) (id : String) (total i : Nat)
    (name msg : String) (rest : List (String × StepResult)) (now : ℚ) :
    runLoop jobs id total i ((name, StepResult.ok msg) :: rest) now
      = ((runLoop (stageUpdate jobs id total i name now) id total (i + 1)
            rest now).1,
         Event.progress name (((i * 100) / total : Nat) : Int) (i + 1) total
           :: (runLoop (stageUpdate jobs id total i name now) id total
                (i + 1) rest now).2.1,
         i :: (runLoop (stageUpdate jobs id total i name now) id total
                (i + 1) rest now).2.2) := by
  simp only [runLoop, stageUpdate]

/-- Properties of the stage loop when stage `pre.length` fails with a
non-empty message `m` and every earlier stage succeeds: the registry ends
`failed` with error `m`, an `error` event naming the failing stage is
broadcast, no `complete` event is broadcast, and exactly the stages
`i, i+1, …, i + pre.length` are invoked. -/
theorem runLoop_fail_props (nm m : String)
    (post : List (String × StepResult)) (id : String) (now : ℚ)
    (hm : m ≠ "") :
    ∀ (pre : List (String × StepResult)) (jobs : Jobs) (total i : Nat),
      (∀ x ∈ pre, x.2.isOk = true) →
      statusOf (runLoop jobs id total i
        (pre ++ (nm, StepResult.fail m) :: post) now).1 id = some "failed"
      ∧ errorOf (runLoop jobs id total i
        (pre ++ (nm, StepResult.fail m) :: post) now).1 id = some m
      ∧ Event.error nm m ∈ (runLoop jobs id total i
        (pre ++ (nm, StepResult.fail m) :: post) now).2.1
      ∧ (∀ ev ∈ (runLoop jobs id total i
          (pre ++ (nm, StepResult.fail m) :: post) now).2.1,
          ev.isComplete = false)
      ∧ (runLoop jobs id total i
          (pre ++ (nm, StepResult.fail m) :: post) now).2.2
        = List.range' i (pre.length + 1) := by
  intro pre
  induction pre with
  | nil =>
      intro jobs total i hpre
      simp only [List.nil_append, runLoop]
      refine ⟨?_, ?_, ?_, ?_, ?_⟩
      · exact (statusOf_update_failed _ id m now hm).1
      · exact (statusOf_update_failed _ id m now hm).2
      · simp
      · intro ev hev
        simp at hev
        rcases hev with h | h <;> subst h <;> rfl
      · simp [List.range']
  | cons hd tl ih =>
      intro jobs total i hpre
      obtain ⟨name, r⟩ := hd
      have hok : r.isOk = true := hpre (name, r) (by simp)
      cases r with
      | fail msg => simp [StepResult.isOk] at hok
      | exn msg => simp [StepResult.isOk] at hok
      | ok msg =>
          have htl : ∀ x ∈ tl, x.2.isOk = true := by
            intro x hx
            exact hpre x (by simp [hx])
          have hrec := ih (stageUpdate jobs id total i name now) total
            (i + 1) htl
          rw [List.cons_append, runLoop_cons_ok]
          refine ⟨hrec.1, hrec.2.1, ?_, ?_, ?_⟩
          · simp only [List.mem_cons]
            exact Or.inr hrec.2.2.1
          · intro ev hev
            simp only [List.mem_cons] at hev
            rcases hev with h | h
            · subst h; rfl
            · exact hrec.2.2.2.1 ev h
          · simp only [List.length_cons]
            rw [range'_cons]
            exact congrArg (i :: ·) hrec.2.2.2.2

/-- Properties of the stage loop when every stage succeeds: the events
are exactly one `progress` event per stage (index `k`, payload
`(k*100)/total`) followed by the `complete` event, and the registry ends
`success` with progress 100. -/
theorem runLoop_ok_props (id : String) (now : ℚ) :
    ∀ (steps : List (String × StepResult)) (jobs : Jobs) (total i : Nat),
      (∀ x ∈ steps, x.2.isOk = true) →
      (runLoop jobs id total i steps now).2.1
        = (steps.zip (List.range' i steps.length)).map
            (fun si => Event.progress si.1.1
              (((si.2 * 100) / total : Nat) : Int) (si.2 + 1) total)
          ++ [Event.complete "Workflow completed successfully"]
      ∧ statusOf (runLoop jobs id total i steps now).1 id = some "success"
      ∧ progressOf (runLoop jobs id total i steps now).1 id = some 100 := by
  intro steps
  induction steps with
  | nil =>
      intro jobs total i hsteps
      simp only [runLoop]
      refine ⟨by simp, ?_, ?_⟩
      · exact (statusOf_update_success _ id now).1
      · exact (statusOf_update_success _ id now).2
  | cons hd tl ih =>
      intro jobs total i hsteps
      obtain ⟨name, r⟩ := hd
      have hok : r.isOk = true := hsteps (name, r) (by simp)
      cases r with
      | fail msg => simp [StepResult.isOk] at hok
      | exn msg => simp [StepResult.isOk] at hok
      | ok msg =>
          have htl : ∀ x ∈ tl, x.2.isOk = true := by
            intro x hx
            exact hsteps x (by simp [hx])
          have hrec := ih (stageUpdate jobs id total i name now) total
            (i + 1) htl
          rw [runLoop_cons_ok]
          refine ⟨?_, hrec.2.1, hrec.2.2⟩
          simp only [List.length_cons]
          rw [range'_cons, List.zip_cons_cons, List.map_cons,
            List.cons_append]
          exact congrArg _ hrec.1

theorem zip_map_snd (g : Nat → Int) :
    ∀ (l1 : List (String × StepResult)) (l2 : List Nat),
      l1.length = l2.length →
      (l1.zip l2).map (fun si => g si.2) = l2.map g := by
  intro l1
  induction l1 with
  | nil =>
      intro l2 h
      cases l2 with
      | nil => rfl
      | cons b bs => simp at h
  | cons hd tl ih =>
      intro l2 h
      cases l2 with
      | nil => simp at h
      | cons b bs =>
          simp only [List.zip_cons_cons, List.map_cons]
          rw [ih bs (by simpa using h)]

theorem progressVals_append (l1 l2 : List Event) :
    progressVals (l1 ++ l2) = progressVals l1 ++ progressVals l2 := by
  induction l1 with
  | nil => rfl
  | cons hd tl ih =>
      cases hd <;> simp [progressVals, ih]

theorem progressVals_map_progress (total : Nat)
    (l : List ((String × StepResult) × Nat)) :
    progressVals (l.map (fun si => Event.progress si.1.1
        (((si.2 * 100) / total : Nat) : Int) (si.2 + 1) total))
      = l.map (fun si => (((si.2 * 100) / total : Nat) : Int)) := by
  induction l with
  | nil => rfl
  | cons hd tl ih =>
      simp only [List.map_cons, progressVals]
      exact congrArg _ ih

end Workflow

/-! ## Claims -/

namespace Claims

open JobMgr

/-- C6 counterexample: after a job has been moved to `running`, calling
`create_job` again for the same id resets the stored record to a fresh
`queued` one — it is not a no-op and does not return the existing
record. -/
theorem create_job_not_idempotent :
    statusOf (update_job (create_job [] "r1" "r1" 0).1 "r1"
        { noFields with status := some "running" } 5) "r1" = some "running"
    ∧ statusOf ((create_job (update_job (create_job [] "r1" "r1" 0).1 "r1"
        { noFields with status := some "running" } 5) "r1" "r1" 9).1) "r1"
        = some "queued"
    ∧ startedAtOf ((create_job (update_job (create_job [] "r1" "r1" 0).1 "r1"
        { noFields with status := some "running" } 5) "r1" "r1" 9).1) "r1"
        = none := by
  decide

/-- C6 (amended): `create_job` always stores a fresh `queued` record under
the id — overwriting whatever was there — and returns that fresh record:
the last `create` wins; `create` is not idempotent. -/
theorem create_job_overwrites (jobs : Jobs) (job_id run_id : String)
    (now : ℚ) :
    jfind (create_job jobs job_id run_id now).1 job_id
      = some (create_job jobs job_id run_id now).2
    ∧ (create_job jobs job_id run_id now).2.status = "queued"
    ∧ (create_job jobs job_id run_id now).2.progress = 0
    ∧ (create_job jobs job_id run_id now).2.started_at = none
    ∧ (create_job jobs job_id run_id now).2.completed_at = none
    ∧ (create_job jobs job_id run_id now).2.error = none
    ∧ (create_job jobs job_id run_id now).2.created_at = now
    ∧ (create_job jobs job_id run_id now).2.run_id = run_id := by
  exact ⟨jfind_jinsert_self jobs job_id _, rfl, rfl, rfl, rfl, rfl, rfl, rfl⟩

/-- C10: `update_job` on an id absent from the registry never fails and is
not a no-op: it materialises a fresh `queued` record (progress 0,
`run_id` equal to the given id) and applies the supplied fields to it. -/
theorem update_job_autocreates (jobs : Jobs) (id : String)
    (f : UpdateFields) (now : ℚ) (h : jfind jobs id = none) :
    update_job jobs id f now
      = jinsert jobs id (applyFields (freshJob id id now) f now)
    ∧ jfind (update_job jobs id f now) id
      = some (applyFields (freshJob id id now) f now)
    ∧ (freshJob id id now).status = "queued"
    ∧ (freshJob id id now).progress = 0
    ∧ (freshJob id id now).run_id = id
    ∧ (freshJob id id now).job_id = id
    ∧ update_job jobs id f now ≠ jobs := by
  refine ⟨by simp [update_job, h], ?_, rfl, rfl, rfl, rfl, ?_⟩
  · simp [update_job, h, jfind_jinsert_self]
  · intro heq
    have h2 : jfind (update_job jobs id f now) id
        = some (applyFields (freshJob id id now) f now) := by
      simp [update_job, h, jfind_jinsert_self]
    rw [heq, h] at h2
    exact Option.noConfusion h2

/-- C10 witness: updating an unknown id in an empty registry stores the
auto-created record with the update applied. -/
theorem update_job_autocreates_witness :
    jfind (update_job [] "r9" { noFields with progress := some 30 } 0) "r9"
      = some (applyFields (freshJob "r9" "r9" 0)
          { noFields with progress := some 30 } 0) :=
  (update_job_autocreates [] "r9" { noFields with progress := some 30 } 0
    rfl).2.1

/-- C5 counterexample: a second terminal update re-stamps `completed_at`
with the later time, so `completed_at` is not written exactly once. -/
theorem completedAt_overwritten :
    completedAtOf (update_job
        (update_job [("r1", freshJob "r1" "r1" 0)] "r1"
          { noFields with status := some "success" } 10) "r1"
        { noFields with status := some "stopped" } 20) "r1" = some 20
    ∧ completedAtOf (update_job [("r1", freshJob "r1" "r1" 0)] "r1"
        { noFields with status := some "success" } 10) "r1" = some 10
    ∧ ¬ (some (20 : ℚ) = some (10 : ℚ)) := by
  decide

/-- C5 (amended): every update whose status is terminal stamps
`completed_at` with that update's time, overwriting any earlier stamp;
`started_at` is stamped only on the first transition into `running`
(a later `running` update leaves an existing `started_at` in place). -/
theorem terminal_restamps_startedAt_once (jobs : Jobs) (id : String)
    (j : Job) (s : String) (now : ℚ)
    (hfind : jfind jobs id = some j)
    (hterm : s = "success" ∨ s = "failed" ∨ s = "stopped") :
    completedAtOf (update_job jobs id
        { noFields with status := some s } now) id = some now
    ∧ (j.started_at = none →
        startedAtOf (update_job jobs id
          { noFields with status := some "running" } now) id = some now)
    ∧ (∀ t, j.started_at = some t →
        startedAtOf (update_job jobs id
          { noFields with status := some "running" } now) id = some t) := by
  refine ⟨?_, ?_, ?_⟩
  · rcases hterm with h1 | h1 | h1 <;> subst h1 <;>
      simp [completedAtOf, update_job, hfind, jfind_jinsert_self,
        applyFields, applyStatus, noFields]
  · intro hnone
    simp [startedAtOf, update_job, hfind, jfind_jinsert_self,
      applyFields, applyStatus, noFields, hnone]
  · intro t ht
    simp [startedAtOf, update_job, hfind, jfind_jinsert_self,
      applyFields, applyStatus, noFields, ht]

/-- C5 witness: in a one-job registry, a `failed` update at time 7 stamps
`completed_at = 7`, and a `running` update on a job started at 2 keeps
`started_at = 2`. -/
theorem terminal_restamps_startedAt_once_witness :
    completedAtOf (update_job
        [("r1", { freshJob "r1" "r1" 0 with
                    status := "running", started_at := some 2 })] "r1"
        { noFields with status := some "failed" } 7) "r1" = some 7
    ∧ startedAtOf (update_job
        [("r1", { freshJob "r1" "r1" 0 with
                    status := "running", started_at := some 2 })] "r1"
        { noFields with status := some "running" } 7) "r1" = some 2 := by
  have h := terminal_restamps_startedAt_once
    [("r1", { freshJob "r1" "r1" 0 with
                status := "running", started_at := some 2 })] "r1"
    { freshJob "r1" "r1" 0 with status := "running", started_at := some 2 }
    "failed" 7 rfl (Or.inr (Or.inl rfl))
  exact ⟨h.1, h.2.2 2 rfl⟩

/-- C4 counterexample: an update supplying `progress = 100` with
`started_at` set (60 seconds in the past) does not store
`elapsed * (100 - p) / p = 0` — the ETA branch requires `progress < 100`,
so `eta_seconds` stays absent. -/
theorem eta_not_updated_at_100 :
    etaOf (update_job
        [("r1", { freshJob "r1" "r1" 0 with
                    status := "running", started_at := some 0 })] "r1"
        { noFields with progress := some 100 } 60) "r1"
      ≠ some (((60 : ℚ) - 0) * (100 - 100) / 100) := by
  decide

/-- C4 (amended): an update supplying only a progress value `p` with
`0 < p < 100` while `started_at = t` stores
`eta_seconds = elapsed * (100 - p) / p` with `elapsed = now - t`; for
`p = 0` (and likewise `p = 100`) the ETA is not recomputed and the
previous value is kept, and no division by zero occurs. -/
theorem eta_formula (jobs : Jobs) (id : String) (j : Job) (p : Int)
    (t now : ℚ) (hfind : jfind jobs id = some j)
    (hst : j.started_at = some t) :
    (0 < p → p < 100 →
      etaOf (update_job jobs id { noFields with progress := some p } now) id
        = some ((now - t) * (100 - (p : ℚ)) / p))
    ∧ (p = 0 →
      etaOf (update_job jobs id { noFields with progress := some p } now) id
        = j.eta_seconds) := by
  constructor
  · intro hp hp100
    have hp0 : (p : ℚ) ≠ 0 := by
      exact_mod_cast hp.ne'
    simp [etaOf, update_job, hfind, jfind_jinsert_self, applyFields,
      applyProgress, noFields, hst, hp, hp100]
    field_simp
    ring
  · intro hp
    subst hp
    simp [etaOf, update_job, hfind, jfind_jinsert_self, applyFields,
      applyProgress, noFields, hst]

/-- C4 witness: with `started_at` 60 seconds in the past and
`progress = 25`, the stored ETA is 180 seconds. -/
theorem eta_formula_witness :
    etaOf (update_job
        [("r1", { freshJob "r1" "r1" 0 with
                    status := "running", started_at := some 0 })] "r1"
        { noFields with progress := some 25 } 60) "r1" = some 180 := by
  have h := (eta_formula
    [("r1", { freshJob "r1" "r1" 0 with
                status := "running", started_at := some 0 })] "r1"
    { freshJob "r1" "r1" 0 with status := "running", started_at := some 0 }
    25 0 60 rfl rfl).1 (by norm_num) (by norm_num)
  rw [h]
  norm_num

/-- C7: on attach, a subscriber receives exactly the last
`min(L, 50)` lines of the run's durable log file, each as a log-typed
message (stripped), followed by exactly one sentinel line; afterwards
the receive loop sends nothing on its own (only a `pong` per `ping`). -/
theorem replay_window_exact (lines : List String) :
    WindTunnel.replayMessages lines
      = (WindTunnel.lastN (min lines.length 50) lines).map
          (fun l => WindTunnel.WsMsg.log l.trim)
        ++ [WindTunnel.WsMsg.log WindTunnel.sentinel]
    ∧ (WindTunnel.replayMessages lines).length = min lines.length 50 + 1
    ∧ (∀ m, m ≠ "ping" → WindTunnel.liveLoopReply m = []) := by
  refine ⟨?_, ?_, ?_⟩
  · unfold WindTunnel.replayMessages WindTunnel.recentLines WindTunnel.lastN
    by_cases h : lines.length > 50
    · have hmin : min lines.length 50 = 50 :=
        Nat.min_eq_right (le_of_lt h)
      simp [h, hmin]
    · have hmin : min lines.length 50 = lines.length :=
        Nat.min_eq_left (by omega)
      simp [h, hmin]
  · simp only [WindTunnel.replayMessages, WindTunnel.recentLines,
      List.length_append, List.length_map, List.length_cons,
      List.length_nil]
    by_cases h : lines.length > 50 <;> simp [h] <;> omega
  · intro m hm
    simp [WindTunnel.liveLoopReply, hm]

/-- C7 witness: a client message other than `ping` draws no reply after
the replay. -/
theorem replay_window_exact_witness :
    WindTunnel.liveLoopReply "status?" = [] :=
  (replay_window_exact []).2.2 "status?" (by decide)

/-- C9: when `constant/polyMesh` and its `points` file already exist, the
wind-tunnel mesh-creation stage reports success immediately and spawns no
external process, whatever the external processes would do; invoking it
again gives the same result (idempotent skip). -/
theorem polymesh_skip_idempotent (fs : WindTunnel.FS)
    (pb pb' : WindTunnel.ProcBehavior)
    (hdir : fs.polyMeshDir = true) (hpts : fs.pointsFile = true) :
    WindTunnel.create_polymesh fs pb = (true, [])
    ∧ WindTunnel.create_polymesh fs pb'
        = WindTunnel.create_polymesh fs pb := by
  constructor <;> simp [WindTunnel.create_polymesh, hdir, hpts]

/-- C9 witness: with the artifact present, even process behaviours that
would fail are never consulted — the stage succeeds with zero spawns. -/
theorem polymesh_skip_idempotent_witness :
    WindTunnel.create_polymesh ⟨true, true, ["m.unv"], []⟩
        ⟨(false, "spawn error"), (false, "bad mesh")⟩ = (true, []) :=
  (polymesh_skip_idempotent ⟨true, true, ["m.unv"], []⟩
    ⟨(false, "spawn error"), (false, "bad mesh")⟩
    ⟨(false, "spawn error"), (false, "bad mesh")⟩ rfl rfl).1

/-- C8 counterexample: in the wind-tunnel mesh-creation stage the
`checkMesh` outcome is ignored — with the fatal marker present in the
`checkMesh` output (and a failing exit), the stage still reports
success. -/
theorem checkmesh_outcome_ignored :
    Workflow.strContains "--> FOAM FATAL ERROR: mesh check failed"
        "FOAM FATAL ERROR" = true
    ∧ WindTunnel.create_polymesh ⟨false, false, ["tunnel.unv"], []⟩
        ⟨(true, "converted"),
         (false, "--> FOAM FATAL ERROR: mesh check failed")⟩
        = (true, ["ideasUnvToFoam tunnel.unv", "checkMesh"]) := by
  constructor
  · decide
  · decide

/-- C8 (amended): the propeller mesh-check stage reports success iff the
captured output lacks the fatal marker `FOAM FATAL ERROR`, independently
of the exit code; the wind-tunnel mesh-creation stage instead ignores the
`checkMesh` outcome entirely — whenever it reaches the `checkMesh` step
it reports success regardless of markers or exit code. -/
theorem mesh_check_marker_policy (output : String) (rc : Int)
    (fs : WindTunnel.FS) (pb : WindTunnel.ProcBehavior) :
    (Workflow.strContains output "FOAM FATAL ERROR" = false →
      Workflow.checkMeshReport output = true)
    ∧ (Workflow.strContains output "FOAM FATAL ERROR" = true →
      Workflow.checkMeshReport output = false)
    ∧ ("checkMesh" ∈ (WindTunnel.create_polymesh fs pb).2 →
      (WindTunnel.create_polymesh fs pb).1 = true) := by
  refine ⟨?_, ?_, ?_⟩
  · intro h
    simp [Workflow.checkMeshReport, h]
  · intro h
    simp [Workflow.checkMeshReport, h]
  · intro h
    have hlen : ∀ (pre x : String), pre.length = 15 →
        ("checkMesh" : String) ≠ pre ++ x := by
      intro pre x hpre heq
      have h2 := congrArg String.length heq
      rw [String.length_append] at h2
      have h3 : ("checkMesh" : String).length = 9 := by decide
      omega
    unfold WindTunnel.create_polymesh at h ⊢
    by_cases hskip : fs.polyMeshDir ∧ fs.pointsFile
    · simp [hskip]
    · simp only [if_neg hskip] at h ⊢
      cases hms : fs.unvFiles ++ fs.mshFiles with
      | nil => simp [hms] at h
      | cons meshFile rest =>
          simp only [hms] at h ⊢
          by_cases hunv : WindTunnel.fileSuffix meshFile = ".unv"
          · simp only [if_pos hunv] at h ⊢
            unfold WindTunnel.create_polymesh.runConvert at h ⊢
            by_cases hconv : pb.convertResult.1
            · simp [hconv]
            · simp only [if_neg hconv] at h
              simp only [List.mem_singleton] at h
              exact absurd h (hlen "ideasUnvToFoam " meshFile (by decide))
          · simp only [if_neg hunv] at h ⊢
            by_cases hmsh : WindTunnel.fileSuffix meshFile = ".msh"
            · simp only [if_pos hmsh] at h ⊢
              unfold WindTunnel.create_polymesh.runConvert at h ⊢
              by_cases hconv : pb.convertResult.1
              · simp [hconv]
              · simp only [if_neg hconv] at h
                simp only [List.mem_singleton] at h
                have h2 := congrArg String.length h
                rw [String.length_append] at h2
                have h3 : ("checkMesh" : String).length = 9 := by decide
                have h4 : ("gmshToFoam " : String).length = 11 := by decide
                omega
            · simp [if_neg hmsh] at h

/-- C8 witness: output with no marker yields success for the propeller
mesh check even alongside a non-zero exit code; output containing the
marker yields failure even with exit code 0. -/
theorem mesh_check_marker_policy_witness :
    Workflow.checkMeshReport "Checking geometry... cells: 1000 OK" = true
    ∧ Workflow.checkMeshReport "--> FOAM FATAL ERROR in mesh" = false := by
  exact ⟨(mesh_check_marker_policy "Checking geometry... cells: 1000 OK" 1
      ⟨false, false, [], []⟩ ⟨(true, ""), (true, "")⟩).1 (by decide),
    (mesh_check_marker_policy "--> FOAM FATAL ERROR in mesh" 0
      ⟨false, false, [], []⟩ ⟨(true, ""), (true, "")⟩).2.1 (by decide)⟩

/-- C1 counterexample: a stage failing with the empty message `m = ""`
still moves the run to `failed`, but `update_job` treats the falsy empty
string as "no error supplied", so the stored `error` field is `None`
rather than `m`. -/
theorem emptyFailureMessage_error_unset :
    statusOf (Workflow.run_workflow [] "r1"
        [("A", Workflow.StepResult.fail "")] 0).1 "r1" = some "failed"
    ∧ errorOf (Workflow.run_workflow [] "r1"
        [("A", Workflow.StepResult.fail "")] 0).1 "r1" = none
    ∧ (none : Option String) ≠ some "" := by
  refine ⟨by decide, by decide, by decide⟩

/-- C1 (amended): when stage `i` is the first to fail, with a non-empty
message `m`, `run_workflow` broadcasts an `error` event carrying the
stage's name and `m`, sets the run's status to `failed` with its error
field equal to `m`, invokes exactly the stages `0..i` (none with a
larger index), and broadcasts no `complete` event; a failure with an
empty message does all of the above except that the error field keeps
its previous value. -/
theorem pipeline_halts_on_failure
    (pre : List (String × Workflow.StepResult)) (nm m : String)
    (post : List (String × Workflow.StepResult)) (jobs : Jobs)
    (id : String) (now : ℚ)
    (hpre : ∀ x ∈ pre, x.2.isOk = true) (hm : m ≠ "") :
    statusOf (Workflow.run_workflow jobs id
        (pre ++ (nm, Workflow.StepResult.fail m) :: post) now).1 id
      = some "failed"
    ∧ errorOf (Workflow.run_workflow jobs id
        (pre ++ (nm, Workflow.StepResult.fail m) :: post) now).1 id
      = some m
    ∧ Workflow.Event.error nm m ∈ (Workflow.run_workflow jobs id
        (pre ++ (nm, Workflow.StepResult.fail m) :: post) now).2.1
    ∧ (∀ ev ∈ (Workflow.run_workflow jobs id
        (pre ++ (nm, Workflow.StepResult.fail m) :: post) now).2.1,
        ev.isComplete = false)
    ∧ (Workflow.run_workflow jobs id
        (pre ++ (nm, Workflow.StepResult.fail m) :: post) now).2.2
      = List.range (pre.length + 1) := by
  have h := Workflow.runLoop_fail_props nm m post id now hm pre
    (update_job jobs id
      { noFields with status := some "running", progress := some 0 } now)
    (pre ++ (nm, Workflow.StepResult.fail m) :: post).length 0 hpre
  simp only [Workflow.run_workflow]
  rw [List.range_eq_range']
  exact h

/-- C1 witness: in the pipeline `[A, B, C]` where `B` fails with message
`boom`, the run ends `failed` with error `boom`, an `error` event names
`B`, no `complete` event is broadcast, and only stages 0 and 1 run. -/
theorem pipeline_halts_on_failure_witness :
    statusOf (Workflow.run_workflow [] "r1"
        [("A", Workflow.StepResult.ok "done"),
         ("B", Workflow.StepResult.fail "boom"),
         ("C", Workflow.StepResult.ok "x")] 0).1 "r1" = some "failed"
    ∧ errorOf (Workflow.run_workflow [] "r1"
        [("A", Workflow.StepResult.ok "done"),
         ("B", Workflow.StepResult.fail "boom"),
         ("C", Workflow.StepResult.ok "x")] 0).1 "r1" = some "boom"
    ∧ Workflow.Event.error "B" "boom" ∈ (Workflow.run_workflow [] "r1"
        [("A", Workflow.StepResult.ok "done"),
         ("B", Workflow.StepResult.fail "boom"),
         ("C", Workflow.StepResult.ok "x")] 0).2.1
    ∧ (Workflow.run_workflow [] "r1"
        [("A", Workflow.StepResult.ok "done"),
         ("B", Workflow.StepResult.fail "boom"),
         ("C", Workflow.StepResult.ok "x")] 0).2.2 = List.range 2 := by
  have h := pipeline_halts_on_failure
    [("A", Workflow.StepResult.ok "done")] "B" "boom"
    [("C", Workflow.StepResult.ok "x")] [] "r1" 0
    (by decide) (by decide)
  exact ⟨h.1, h.2.1, h.2.2.1, h.2.2.2.2⟩

/-- C3 counterexample: a 4-stage all-success pipeline broadcasts the
progress values `0, 25, 50, 75` only — the final `100` is never carried
by a broadcast `progress` event, contrary to the claimed sequence
`0, 25, 50, 75, 100`. -/
theorem broadcast_progress_misses_100 :
    Workflow.progressVals (Workflow.run_workflow [] "r1"
        [("A", Workflow.StepResult.ok "a"), ("B", Workflow.StepResult.ok "b"),
         ("C", Workflow.StepResult.ok "c"), ("D", Workflow.StepResult.ok "d")]
        0).2.1 = [0, 25, 50, 75]
    ∧ ([0, 25, 50, 75] : List Int) ≠ [0, 25, 50, 75, 100] := by
  refine ⟨by decide, by decide⟩

/-- C3 (amended): for a pipeline of `N` all-succeeding stages, the
broadcast `progress` values are exactly `floor(i / N * 100)` for
`i = 0..N-1` — a non-decreasing sequence in which every value is below
100; the final value 100 is not broadcast as a `progress` event but is
recorded in the registry on the success transition, which is announced
by a final `complete` event. -/
theorem progress_values_floor_and_registry_100
    (steps : List (String × Workflow.StepResult)) (jobs : Jobs)
    (id : String) (now : ℚ)
    (hsteps : ∀ x ∈ steps, x.2.isOk = true) :
    Workflow.progressVals (Workflow.run_workflow jobs id steps now).2.1
      = (List.range steps.length).map
          (fun k => (((k * 100) / steps.length : Nat) : Int))
    ∧ List.Pairwise (· ≤ ·)
        (Workflow.progressVals (Workflow.run_workflow jobs id steps now).2.1)
    ∧ (∀ q ∈ Workflow.progressVals
        (Workflow.run_workflow jobs id steps now).2.1, q < 100)
    ∧ statusOf (Workflow.run_workflow jobs id steps now).1 id
        = some "success"
    ∧ progressOf (Workflow.run_workflow jobs id steps now).1 id = some 100
    ∧ (Workflow.run_workflow jobs id steps now).2.1.getLast?
        = some (Workflow.Event.complete "Workflow completed successfully")
    := by
  have h := Workflow.runLoop_ok_props id now steps
    (update_job jobs id
      { noFields with status := some "running", progress := some 0 } now)
    steps.length 0 hsteps
  simp only [Workflow.run_workflow]
  have hpv : Workflow.progressVals
      (Workflow.runLoop (update_job jobs id
        { noFields with status := some "running", progress := some 0 } now)
        id steps.length 0 steps now).2.1
      = (List.range steps.length).map
          (fun k => (((k * 100) / steps.length : Nat) : Int)) := by
    rw [h.1, Workflow.progressVals_append,
      Workflow.progressVals_map_progress]
    have hz := Workflow.zip_map_snd
      (fun k => (((k * 100) / steps.length : Nat) : Int)) steps
      (List.range' 0 steps.length) (by simp)
    rw [hz, List.range_eq_range']
    simp [Workflow.progressVals]
  refine ⟨hpv, ?_, ?_, h.2.1, h.2.2, ?_⟩
  · rw [hpv]
    have hmono : List.Pairwise (· < ·) (List.range steps.length) :=
      List.pairwise_lt_range steps.length
    rw [List.pairwise_map]
    refine hmono.imp ?_
    intro a b hab
    exact Int.ofNat_le.mpr (Nat.div_le_div_right
      (Nat.mul_le_mul_right 100 (le_of_lt hab)))
  · rw [hpv]
    intro q hq
    simp only [List.mem_map, List.mem_range] at hq
    obtain ⟨k, hk, hkq⟩ := hq
    subst hkq
    have hN : 0 < steps.length := Nat.pos_of_ne_zero (by omega)
    have : (k * 100) / steps.length < 100 := by
      rw [Nat.div_lt_iff_lt_mul hN]
      omega
    exact_mod_cast this
  · rw [h.1]
    simp

/-- C3 witness: for `N = 4` all-succeeding stages, the registry ends
`success` at progress 100. -/
theorem progress_values_floor_and_registry_100_witness :
    statusOf (Workflow.run_workflow [] "r1"
        [("A", Workflow.StepResult.ok "a"), ("B", Workflow.StepResult.ok "b"),
         ("C", Workflow.StepResult.ok "c"), ("D", Workflow.StepResult.ok "d")]
        0).1 "r1" = some "success"
    ∧ progressOf (Workflow.run_workflow [] "r1"
        [("A", Workflow.StepResult.ok "a"), ("B", Workflow.StepResult.ok "b"),
         ("C", Workflow.StepResult.ok "c"), ("D", Workflow.StepResult.ok "d")]
        0).1 "r1" = some 100 := by
  have h := progress_values_floor_and_registry_100
    [("A", Workflow.StepResult.ok "a"), ("B", Workflow.StepResult.ok "b"),
     ("C", Workflow.StepResult.ok "c"), ("D", Workflow.StepResult.ok "d")]
    [] "r1" 0 (by decide)
  exact ⟨h.2.2.2.1, h.2.2.2.2.1⟩

/-- C2 counterexample: a cancel against the running stage's registered
process returns true and records `stopped` — but when the killed stage
then reports failure, `run_workflow` overwrites the status with
`failed`, so the terminal status is `failed`, not `stopped`. -/
theorem cancelled_run_ends_failed :
    (Workflow.stop_workflow Workflow.soloRunState "r1" 10).2 = true
    ∧ statusOf (Workflow.stop_workflow Workflow.soloRunState "r1"
        10).1.jobs "r1" = some "stopped"
    ∧ statusOf (Workflow.resumeAfterKill
        (Workflow.stop_workflow Workflow.soloRunState "r1" 10).1 "r1"
        "Running solver" "Solver failed (rc=-15)" 11).1.jobs "r1"
      = some "failed"
    ∧ (some "failed" : Option String) ≠ some "stopped" := by
  refine ⟨by decide, by decide, by decide, by decide⟩

/-- C2 (amended): a concurrent cancel terminates the registered process,
removes its handle from the registry, immediately records `stopped`, and
a subsequent cancel on the same run id returns false; however, when the
cancelled stage then reports failure the pipeline overwrites the run's
status, so the terminal status is `failed`, not `stopped` (the source
has no cancellation flag distinguishing the two). -/
theorem cancel_terminates_and_final_failed (s : Workflow.WState)
    (id stepName failMsg : String) (t1 t2 t3 : ℚ)
    (hnodup : s.active_processes.Nodup)
    (hproc : id ∈ s.active_processes) (hmsg : failMsg ≠ "") :
    (Workflow.stop_workflow s id t1).2 = true
    ∧ id ∈ (Workflow.stop_workflow s id t1).1.killed
    ∧ id ∉ (Workflow.stop_workflow s id t1).1.active_processes
    ∧ statusOf (Workflow.stop_workflow s id t1).1.jobs id = some "stopped"
    ∧ (Workflow.stop_workflow (Workflow.stop_workflow s id t1).1 id
        t2).2 = false
    ∧ statusOf (Workflow.resumeAfterKill
        (Workflow.stop_workflow s id t1).1 id stepName failMsg t3).1.jobs
        id = some "failed"
    ∧ (Workflow.stop_workflow (Workflow.resumeAfterKill
        (Workflow.stop_workflow s id t1).1 id stepName failMsg t3).1 id
        t2).2 = false := by
  have hnm : id ∉ s.active_processes.erase id := by
    intro hmem
    exact absurd (hnodup.mem_erase_iff.mp hmem).1 (by simp)
  refine ⟨?_, ?_, ?_, ?_, ?_, ?_, ?_⟩
  · simp [Workflow.stop_workflow, hproc]
  · simp [Workflow.stop_workflow, hproc]
  · simp only [Workflow.stop_workflow, if_pos hproc]
    exact hnm
  · simp only [Workflow.stop_workflow, if_pos hproc]
    exact Workflow.statusOf_update_status_only s.jobs id "stopped" t1
      (by decide)
  · simp only [Workflow.stop_workflow, if_pos hproc]
    simp [Workflow.stop_workflow, hnm]
  · simp only [Workflow.stop_workflow, if_pos hproc,
      Workflow.resumeAfterKill]
    exact (Workflow.statusOf_update_failed _ id failMsg t3 hmsg).1
  · simp only [Workflow.stop_workflow, if_pos hproc,
      Workflow.resumeAfterKill]
    have : id ∉ (s.active_processes.erase id).erase id := by
      intro hmem
      exact hnm (List.mem_of_mem_erase hmem)
    simp [Workflow.stop_workflow, this]

/-- C2 witness: in the one-process state, cancel succeeds, the handle is
gone, and a second cancel returns false. -/
theorem cancel_terminates_and_final_failed_witness :
    (Workflow.stop_workflow Workflow.soloRunState "r1" 1).2 = true
    ∧ "r1" ∉ (Workflow.stop_workflow Workflow.soloRunState "r1"
        1).1.active_processes
    ∧ (Workflow.stop_workflow (Workflow.stop_workflow
        Workflow.soloRunState "r1" 1).1 "r1" 2).2 = false := by
  have h := cancel_terminates_and_final_failed Workflow.soloRunState
    "r1" "Running solver" "Solver failed (rc=-15)" 1 2 3
    (by decide) (by decide) (by decide)
  exact ⟨h.1, h.2.2.1, h.2.2.2.2.1⟩

end Claims
